import Mathlib

/-!
Shallow embedding of the Treasures FastAPI app (src/main.py) and proofs
of the specification claims about its five route handlers.

Conventions of the embedding:
* the relational store is a value of type DB: the rows of the treasures
  and shops tables in storage order, plus the next serial treasure_id;
* Python floats / SQL numerics are modelled as rationals;
* SQL text ordering is modelled by lexicographic order on the
  characters of the string (strLe below);
* each handler is a pure function from the database state and the
  request data to a result structure holding the HTTP outcome, the
  final database state and, where a claim needs it, the trace of
  storage operations performed;
* an unhandled Python exception (ValueError, IndexError) is a
  distinguished outcome constructor, not an HTTP response.
-/

/-- Lexicographic order on character lists: the model of SQL text ordering
used for ORDER BY on text columns. -/
def strLeAux : List Char → List Char → Bool
  | [], _ => true
  | _ :: _, [] => false
  | x :: xs, y :: ys => if x < y then true else if y < x then false else strLeAux xs ys

/-- Lexicographic order on strings. -/
def strLe (a b : String) : Bool := strLeAux a.data b.data

/-- A row of the treasures table. The column order matches the table
(treasure_id, treasure_name, colour, age, cost_at_auction, shop_id),
which is the tuple shape RETURNING * produces. -/
structure Treasure where
  treasure_id : Nat
  treasure_name : String
  colour : String
  age : Int
  cost_at_auction : ℚ
  shop_id : Nat
deriving DecidableEq

/-- A row of the shops table. -/
structure Shop where
  shop_id : Nat
  shop_name : String
  slogan : String
deriving DecidableEq

/-- The relational store: both tables in storage order plus the next
serial value for the generated treasure_id column. -/
structure DB where
  treasures : List Treasure
  shops : List Shop
  nextId : Nat
deriving DecidableEq

/-- One joined row of the SELECT in get_treasures: treasures joined with
shops on shop_id, projecting shop_name instead of shop_id. -/
structure TreasureRecord where
  treasure_id : Nat
  treasure_name : String
  colour : String
  age : Int
  cost_at_auction : ℚ
  shop_name : String
deriving DecidableEq

/-- A storage operation performed by a handler, for tracing which
statements ran and whether the connection was opened and closed. -/
inductive DbOp where
  | connect
  | query (tag : String)
  | close
deriving DecidableEq

/-- The allow-list for the sort_by query parameter (treasures_columns in
src/main.py). -/
def treasures_columns : List String :=
  ["treasure_id", "treasure_name", "colour", "age", "cost_at_auction", "shop_name"]

/-- The allow-list for the order query parameter (order_options in
src/main.py). -/
def order_options : List String := ["asc", "desc"]

/-- The JOIN of get_treasures: for each treasure, each shop row with the
matching shop_id yields one joined record. -/
def joinRows (db : DB) : List TreasureRecord :=
  db.treasures.flatMap (fun t =>
    (db.shops.filter (fun s => s.shop_id == t.shop_id)).map (fun s =>
      { treasure_id := t.treasure_id, treasure_name := t.treasure_name,
        colour := t.colour, age := t.age, cost_at_auction := t.cost_at_auction,
        shop_name := s.shop_name }))

/-- Comparison of two joined records on the column named by sort_by.
Exactly the six validated columns are meaningful; the catch-all branch
is never reached for a validated sort_by. -/
def colLe (sort_by : String) (a b : TreasureRecord) : Bool :=
  if sort_by == "treasure_id" then decide (a.treasure_id ≤ b.treasure_id)
  else if sort_by == "treasure_name" then strLe a.treasure_name b.treasure_name
  else if sort_by == "colour" then strLe a.colour b.colour
  else if sort_by == "age" then decide (a.age ≤ b.age)
  else if sort_by == "cost_at_auction" then decide (a.cost_at_auction ≤ b.cost_at_auction)
  else strLe a.shop_name b.shop_name

/-- Comparison in the requested direction: ORDER BY sort_by asc or desc. -/
def dirLe (sort_by ord : String) (a b : TreasureRecord) : Bool :=
  if ord == "desc" then colLe sort_by b a else colLe sort_by a b

/-- The ordering relation on joined records induced by sort_by and the
direction. -/
def dirRel (sort_by ord : String) (a b : TreasureRecord) : Prop :=
  dirLe sort_by ord a b = true

instance (sort_by ord : String) : DecidableRel (dirRel sort_by ord) :=
  fun a b => instDecidableEqBool (dirLe sort_by ord a b) true

/-- ORDER BY of the SELECT in get_treasures, modelled as a sort of the
joined rows by the requested column and direction. -/
def orderBy (sort_by ord : String) (rows : List TreasureRecord) : List TreasureRecord :=
  List.insertionSort (dirRel sort_by ord) rows

/-- Python truthiness of an optional integer query parameter: None and 0
are falsy. -/
def truthyInt : Option Int → Bool
  | none => false
  | some n => n != 0

/-- Python truthiness of an optional string query parameter: None and the
empty string are falsy. -/
def truthyStr : Option String → Bool
  | none => false
  | some s => s != ""

/-- The in-memory min_age filter of get_treasures: applied only when the
parameter is truthy, keeping records with age at least min_age. -/
def minAgeFilter (min_age : Option Int) (data : List TreasureRecord) : List TreasureRecord :=
  if truthyInt min_age then data.filter (fun t => decide (min_age.getD 0 ≤ t.age)) else data

/-- The in-memory max_age filter of get_treasures: applied only when the
parameter is truthy, keeping records with age at most max_age. -/
def maxAgeFilter (max_age : Option Int) (data : List TreasureRecord) : List TreasureRecord :=
  if truthyInt max_age then data.filter (fun t => decide (t.age ≤ max_age.getD 0)) else data

/-- The in-memory colour filter of get_treasures: applied only when the
parameter is truthy, keeping records whose colour equals it exactly. -/
def colourFilter (colour : Option String) (data : List TreasureRecord) : List TreasureRecord :=
  if truthyStr colour then data.filter (fun t => t.colour == colour.getD "") else data

/-- Outcome of GET /api/treasures: the response body on success, or an
HTTPException with status and detail. -/
inductive GetResult where
  | ok (treasures : List TreasureRecord)
  | httpError (status : Nat) (detail : String)
deriving DecidableEq

/-- Result of a GET /api/treasures invocation: outcome, the trace of
storage operations, and the final database state. -/
structure GetOutcome where
  result : GetResult
  ops : List DbOp
  db : DB
deriving DecidableEq

/-- Handler of GET /api/treasures (get_treasures in src/main.py):
validate sort_by against treasures_columns and order against
order_options (422 before any storage access on violation), then connect,
run the join SELECT with ORDER BY, close, and apply the in-memory
min_age, max_age and colour filters in that order. -/
def get_treasures (db : DB) (sort_by ord : String)
    (colour : Option String) (max_age min_age : Option Int) : GetOutcome :=
  if sort_by ∉ treasures_columns then
    { result := .httpError 422 ("Invalid sort field: " ++ sort_by), ops := [], db := db }
  else if ord ∉ order_options then
    { result := .httpError 422 ("Invalid order field: " ++ ord), ops := [], db := db }
  else
    let rows := orderBy sort_by ord (joinRows db)
    let data := colourFilter colour (maxAgeFilter max_age (minAgeFilter min_age rows))
    { result := .ok data,
      ops := [.connect, .query "select_join_treasures", .close], db := db }

/-- The request body of POST /api/treasures (pydantic model NewTreasure). -/
structure NewTreasure where
  treasure_name : String
  colour : String
  age : Int
  cost_at_auction : ℚ
  shop_id : Nat
deriving DecidableEq

/-- An error raised by the storage driver (pg8000 DatabaseError). A
foreign-key violation is one kind; any other driver error is another. -/
inductive DBError where
  | foreignKeyViolation (detail : String)
  | otherError (detail : String)
deriving DecidableEq

/-- The response body of a successful create: the persisted row mapped
from RETURNING *, embedding shop_id (not shop_name). -/
structure PostedTreasure where
  treasure_id : Nat
  treasure_name : String
  colour : String
  age : Int
  cost_at_auction : ℚ
  shop_id : Nat
deriving DecidableEq

/-- Outcome of POST /api/treasures: the created row, or an HTTPException
with status and detail. -/
inductive PostResponse where
  | created (treasure : PostedTreasure)
  | httpError (status : Nat) (detail : String)
deriving DecidableEq

/-- Result of a POST /api/treasures invocation: HTTP status (201 on the
success route per the decorator, the HTTPException status otherwise),
the response, the final database state, and whether the connection was
closed (the finally clause closes it on every path). -/
structure PostResult where
  status : Nat
  response : PostResponse
  db : DB
  connClosed : Bool
deriving DecidableEq

/-- The storage INSERT of post_treasure: if the referenced shop_id
exists, append the new row with the generated serial treasure_id and
return it (RETURNING *); otherwise the driver raises a foreign-key
violation and the table is unchanged. -/
def run_insert (db : DB) (nt : NewTreasure) : Except DBError (DB × Treasure) :=
  if db.shops.any (fun s => s.shop_id == nt.shop_id) then
    let t : Treasure :=
      { treasure_id := db.nextId, treasure_name := nt.treasure_name,
        colour := nt.colour, age := nt.age,
        cost_at_auction := nt.cost_at_auction, shop_id := nt.shop_id }
    Except.ok ({ db with treasures := db.treasures ++ [t], nextId := db.nextId + 1 }, t)
  else
    Except.error (DBError.foreignKeyViolation
      ("insert or update on table treasures violates foreign key constraint"))

/-- The try/except/finally body of post_treasure, parameterized over the
outcome of the storage INSERT: on success, map RETURNING * to the
response object; on any DatabaseError whatsoever, raise HTTPException
422 with a detail naming the submitted shop_id. The finally clause
closes the connection on both paths. -/
def post_treasure_core (db : DB) (nt : NewTreasure)
    (insert_result : Except DBError (DB × Treasure)) : PostResult :=
  match insert_result with
  | Except.ok (db2, t) =>
    { status := 201,
      response := PostResponse.created
        { treasure_id := t.treasure_id, treasure_name := t.treasure_name,
          colour := t.colour, age := t.age,
          cost_at_auction := t.cost_at_auction, shop_id := t.shop_id },
      db := db2, connClosed := true }
  | Except.error _ =>
    { status := 422,
      response := PostResponse.httpError 422
        ("shop id " ++ toString nt.shop_id ++ " is out of range"),
      db := db, connClosed := true }

/-- Handler of POST /api/treasures (post_treasure in src/main.py). -/
def post_treasure (db : DB) (nt : NewTreasure) : PostResult :=
  post_treasure_core db nt (run_insert db nt)

/-- Outcome of PATCH /api/treasures: 204 No Content on success, an
unhandled ValueError when the new price is not strictly lower, or an
unhandled IndexError when the current-price lookup returns no row. -/
inductive PatchOutcome where
  | noContent
  | valueError (msg : String)
  | indexError
deriving DecidableEq

/-- Result of a PATCH /api/treasures invocation: outcome, trace of
storage operations, and final database state. -/
structure PatchResult where
  outcome : PatchOutcome
  ops : List DbOp
  db : DB
deriving DecidableEq

/-- Handler of PATCH /api/treasures (patch_treasure in src/main.py):
connect, SELECT the current cost_at_auction for the path id, index row 0
of the result (IndexError on an empty result), raise ValueError unless
the new price is strictly lower, else UPDATE the row and close. The
connection is closed only on the success path. -/
def patch_treasure (db : DB) (treasure_id : Nat) (new_price : ℚ) : PatchResult :=
  let rows := (db.treasures.filter (fun t => t.treasure_id == treasure_id)).map
    Treasure.cost_at_auction
  match rows with
  | [] => { outcome := PatchOutcome.indexError,
            ops := [DbOp.connect, DbOp.query "select_current_price"], db := db }
  | current :: _ =>
    if current ≤ new_price then
      { outcome := PatchOutcome.valueError
          ("The current price is " ++ toString current ++ ", please enter a lower price"),
        ops := [DbOp.connect, DbOp.query "select_current_price"], db := db }
    else
      { outcome := PatchOutcome.noContent,
        ops := [DbOp.connect, DbOp.query "select_current_price",
                DbOp.query "update_cost_at_auction", DbOp.close],
        db := { db with treasures := db.treasures.map (fun t =>
          if t.treasure_id == treasure_id then { t with cost_at_auction := new_price } else t) } }

/-- Outcome of DELETE /api/treasures: 204 No Content with no body on
success, or an unhandled ValueError when the DELETE matched no row. -/
inductive DeleteOutcome where
  | noContent
  | valueError (msg : String)
deriving DecidableEq

/-- Result of a DELETE /api/treasures invocation. -/
structure DeleteResult where
  outcome : DeleteOutcome
  db : DB
deriving DecidableEq

/-- Handler of DELETE /api/treasures (delete_treasure in src/main.py):
run DELETE ... RETURNING * (so the rows matching the id are removed
first), then raise ValueError if nothing came back, else 204. -/
def delete_treasure (db : DB) (treasure_id : Nat) : DeleteResult :=
  let deleted := db.treasures.filter (fun t => t.treasure_id == treasure_id)
  let db2 : DB :=
    { db with treasures := db.treasures.filter (fun t => !(t.treasure_id == treasure_id)) }
  if deleted.isEmpty then
    { outcome := DeleteOutcome.valueError
        ("There is no treasure with id " ++ toString treasure_id), db := db2 }
  else
    { outcome := DeleteOutcome.noContent, db := db2 }

/-- Round a rational to the nearest integer, ties to even: the rounding
Python round applies to the Decimal sums coming back from SUM(numeric).
The quotient floor is num.fdiv den since den is positive. -/
def roundHalfEven (q : ℚ) : ℤ :=
  let f : ℤ := q.num.fdiv (q.den : ℤ)
  let r : ℤ := q.num - f * (q.den : ℤ)
  if 2 * r < (q.den : ℤ) then f
  else if (q.den : ℤ) < 2 * r then f + 1
  else if f % 2 = 0 then f else f + 1

/-- Python round(x, 2): round to 2 decimal places, ties to even. -/
def round2 (q : ℚ) : ℚ := (roundHalfEven (q * 100) : ℚ) / 100

/-- One entry of the GET /api/shops response: the shop row plus the
optional stock value key, absent for shops with no treasures. -/
structure ShopRecord where
  shop_id : Nat
  shop_name : String
  slogan : String
  stock_value : Option ℚ
deriving DecidableEq

/-- Sum of cost_at_auction over the treasures of one shop. -/
def sumCostFor (db : DB) (sid : Nat) : ℚ :=
  ((db.treasures.filter (fun t => t.shop_id == sid)).map Treasure.cost_at_auction).sum

/-- The grouped query of get_shops: SELECT shop_id, SUM(cost_at_auction)
FROM treasures GROUP BY shop_id, i.e. one (shop_id, sum) pair for each
distinct shop_id occurring in the treasures table. -/
def treasures_cost (db : DB) : List (Nat × ℚ) :=
  ((db.treasures.map Treasure.shop_id).dedup).map (fun sid => (sid, sumCostFor db sid))

/-- The body of the inner loop of get_shops: when the grouped row
matches the shop being built, set its stock value key to the rounded
sum; otherwise leave the record alone. -/
def setStock (acc : ShopRecord) (stock : Nat × ℚ) : ShopRecord :=
  if stock.1 == acc.shop_id then { acc with stock_value := some (round2 stock.2) } else acc

/-- Handler of GET /api/shops (get_shops in src/main.py): fetch all
shops and the per-shop summed treasure cost, then for each shop scan
the grouped rows and set the stock value key on a shop_id match. Shops
with no treasures never match, so their record has no stock value key. -/
def get_shops (db : DB) : List ShopRecord :=
  db.shops.map (fun shop =>
    (treasures_cost db).foldl setStock
      { shop_id := shop.shop_id, shop_name := shop.shop_name,
        slogan := shop.slogan, stock_value := none })

/-- A fixed shop row used by the concrete instantiations below. -/
def sampleShop : Shop := { shop_id := 1, shop_name := "shoppe", slogan := "bargains" }

/-- A fixed treasure row used by the concrete instantiations below. -/
def sampleRing : Treasure :=
  { treasure_id := 1, treasure_name := "ring", colour := "gold", age := 5,
    cost_at_auction := 10, shop_id := 1 }

/-- A second fixed treasure row used by the concrete instantiations below. -/
def sampleCoin : Treasure :=
  { treasure_id := 2, treasure_name := "coin", colour := "silver", age := 3,
    cost_at_auction := 5, shop_id := 1 }

/-- A fixed database state with two treasures and one shop. -/
def sampleDB : DB := { treasures := [sampleRing, sampleCoin], shops := [sampleShop], nextId := 3 }

/-- The joined record of sampleRing. -/
def ringRecord : TreasureRecord :=
  { treasure_id := 1, treasure_name := "ring", colour := "gold", age := 5,
    cost_at_auction := 10, shop_name := "shoppe" }

/-- The joined record of sampleCoin. -/
def coinRecord : TreasureRecord :=
  { treasure_id := 2, treasure_name := "coin", colour := "silver", age := 3,
    cost_at_auction := 5, shop_name := "shoppe" }

theorem strLeAux_cons_iff (x y : Char) (xs ys : List Char) :
    strLeAux (x :: xs) (y :: ys) = true ↔ x < y ∨ (x = y ∧ strLeAux xs ys = true) := by
  rcases lt_trichotomy x y with h | h | h
  · rw [strLeAux, if_pos h]
    simp [h]
  · subst h
    rw [strLeAux, if_neg (lt_irrefl x), if_neg (lt_irrefl x)]
    simp
  · rw [strLeAux, if_neg (asymm h), if_pos h]
    constructor
    · intro hh
      exact absurd hh (by simp)
    · rintro (hlt | ⟨rfl, _⟩)
      · exact absurd hlt (asymm h)
      · exact absurd h (lt_irrefl _)

theorem strLeAux_total : ∀ a b, (strLeAux a b || strLeAux b a) = true
  | [], b => by cases b <;> rfl
  | _ :: _, [] => by rfl
  | a :: as, b :: bs => by
    rcases lt_trichotomy a b with h | h | h
    · simp [strLeAux_cons_iff, h]
    · subst h
      have ih := strLeAux_total as bs
      simp only [Bool.or_eq_true, strLeAux_cons_iff, lt_irrefl, false_or, true_and] at ih ⊢
      exact ih
    · simp [strLeAux_cons_iff, h]

theorem strLeAux_trans :
    ∀ a b c, strLeAux a b = true → strLeAux b c = true → strLeAux a c = true
  | [], _, c, _, _ => by cases c <;> rfl
  | _ :: _, [], _, hab, _ => by exact absurd hab (by rw [strLeAux]; simp)
  | _ :: _, _ :: _, [], _, hbc => by exact absurd hbc (by rw [strLeAux]; simp)
  | a :: as, b :: bs, c :: cs, hab, hbc => by
    rw [strLeAux_cons_iff] at hab hbc ⊢
    rcases hab with h1 | ⟨rfl, h1⟩
    · rcases hbc with h2 | ⟨rfl, h2⟩
      · exact Or.inl (lt_trans h1 h2)
      · exact Or.inl h1
    · rcases hbc with h2 | ⟨rfl, h2⟩
      · exact Or.inl h2
      · exact Or.inr ⟨rfl, strLeAux_trans as bs cs h1 h2⟩

theorem strLe_total (a b : String) : (strLe a b || strLe b a) = true :=
  strLeAux_total a.data b.data

theorem strLe_trans {a b c : String} (h1 : strLe a b = true) (h2 : strLe b c = true) :
    strLe a c = true :=
  strLeAux_trans a.data b.data c.data h1 h2

theorem colLe_trans {s : String} {a b c : TreasureRecord}
    (h1 : colLe s a b = true) (h2 : colLe s b c = true) : colLe s a c = true := by
  unfold colLe at h1 h2 ⊢
  split_ifs at h1 h2 ⊢ <;>
    first
      | exact strLe_trans h1 h2
      | (simp only [decide_eq_true_eq] at h1 h2 ⊢; exact le_trans h1 h2)

theorem colLe_total (s : String) (a b : TreasureRecord) :
    (colLe s a b || colLe s b a) = true := by
  unfold colLe
  split_ifs <;>
    first
      | exact strLe_total _ _
      | (simp only [Bool.or_eq_true, decide_eq_true_eq]; exact le_total _ _)

theorem dirLe_trans {s o : String} {a b c : TreasureRecord}
    (h1 : dirLe s o a b = true) (h2 : dirLe s o b c = true) : dirLe s o a c = true := by
  unfold dirLe at h1 h2 ⊢
  by_cases ho : (o == "desc") = true
  · rw [if_pos ho] at h1 h2 ⊢
    exact colLe_trans h2 h1
  · rw [if_neg ho] at h1 h2 ⊢
    exact colLe_trans h1 h2

theorem dirLe_total (s o : String) (a b : TreasureRecord) :
    (dirLe s o a b || dirLe s o b a) = true := by
  unfold dirLe
  by_cases ho : (o == "desc") = true
  · rw [if_pos ho, if_pos ho]
    exact colLe_total s b a
  · rw [if_neg ho, if_neg ho]
    exact colLe_total s a b

theorem orderBy_sorted (s o : String) (rows : List TreasureRecord) :
    List.Sorted (dirRel s o) (orderBy s o rows) := by
  haveI : IsTrans TreasureRecord (dirRel s o) := ⟨fun _ _ _ => dirLe_trans⟩
  haveI : IsTotal TreasureRecord (dirRel s o) :=
    ⟨fun a b => by simpa [dirRel] using dirLe_total s o a b⟩
  exact List.sorted_insertionSort (dirRel s o) rows

theorem mem_orderBy {s o : String} {rows : List TreasureRecord} {r : TreasureRecord} :
    r ∈ orderBy s o rows ↔ r ∈ rows :=
  (List.perm_insertionSort (dirRel s o) rows).mem_iff

theorem minAgeFilter_sublist (mi : Option Int) (l : List TreasureRecord) :
    (minAgeFilter mi l).Sublist l := by
  unfold minAgeFilter
  split
  · exact List.filter_sublist l
  · exact List.Sublist.refl l

theorem maxAgeFilter_sublist (ma : Option Int) (l : List TreasureRecord) :
    (maxAgeFilter ma l).Sublist l := by
  unfold maxAgeFilter
  split
  · exact List.filter_sublist l
  · exact List.Sublist.refl l

theorem colourFilter_sublist (c : Option String) (l : List TreasureRecord) :
    (colourFilter c l).Sublist l := by
  unfold colourFilter
  split
  · exact List.filter_sublist l
  · exact List.Sublist.refl l

theorem filters_sublist (c : Option String) (ma mi : Option Int) (l : List TreasureRecord) :
    (colourFilter c (maxAgeFilter ma (minAgeFilter mi l))).Sublist l :=
  ((colourFilter_sublist c _).trans (maxAgeFilter_sublist ma _)).trans
    (minAgeFilter_sublist mi l)

/-- C4: for every valid sort_by in the six-column allow-list and every
order in {asc, desc}, the list returned by GET /api/treasures is
monotonically ordered by that field in that direction, also after the
in-memory colour/age filters (which preserve the fetched order). The
statement needs no validity hypothesis: whenever the handler returns a
list at all, the parameters were valid and the list is sorted. -/
theorem get_treasures_sorted (db : DB) (sort_by ord : String)
    (colour : Option String) (max_age min_age : Option Int) (l : List TreasureRecord)
    (h : (get_treasures db sort_by ord colour max_age min_age).result = GetResult.ok l) :
    List.Sorted (dirRel sort_by ord) l := by
  unfold get_treasures at h
  by_cases hs : sort_by ∉ treasures_columns
  · rw [if_pos hs] at h
    exact absurd h (by simp)
  · by_cases ho : ord ∉ order_options
    · rw [if_neg hs, if_pos ho] at h
      exact absurd h (by simp)
    · rw [if_neg hs, if_neg ho] at h
      simp only [GetResult.ok.injEq] at h
      rw [← h]
      exact List.Pairwise.sublist (filters_sublist colour max_age min_age _)
        (orderBy_sorted sort_by ord _)

theorem get_treasures_sorted_witness :
    ((get_treasures sampleDB "age" "asc" none none none).result =
      GetResult.ok [coinRecord, ringRecord]) ∧
    List.Sorted (dirRel "age" "asc") [coinRecord, ringRecord] :=
  ⟨by decide, get_treasures_sorted sampleDB "age" "asc" none none none _ (by decide)⟩

/-- C5: a GET /api/treasures request whose sort_by is outside the
six-column allow-list or whose order is not asc/desc fails with HTTP 422
before any storage access: no connection is opened, no query runs, and
the database state is unchanged. -/
theorem get_treasures_invalid_params (db : DB) (sort_by ord : String)
    (colour : Option String) (max_age min_age : Option Int)
    (h : sort_by ∉ treasures_columns ∨ ord ∉ order_options) :
    (∃ d, (get_treasures db sort_by ord colour max_age min_age).result =
        GetResult.httpError 422 d) ∧
    (get_treasures db sort_by ord colour max_age min_age).ops = [] ∧
    (get_treasures db sort_by ord colour max_age min_age).db = db := by
  unfold get_treasures
  by_cases hs : sort_by ∉ treasures_columns
  · rw [if_pos hs]
    exact ⟨⟨_, rfl⟩, rfl, rfl⟩
  · rcases h with h | h
    · exact absurd h (not_not.mpr (not_not.mp hs))
    · rw [if_neg hs, if_pos h]
      exact ⟨⟨_, rfl⟩, rfl, rfl⟩

theorem get_treasures_invalid_params_witness :
    (("cost" ∉ treasures_columns ∨ "asc" ∉ order_options) ∧
      (∃ d, (get_treasures sampleDB "cost" "asc" none none none).result =
          GetResult.httpError 422 d) ∧
      (get_treasures sampleDB "cost" "asc" none none none).ops = [] ∧
      (get_treasures sampleDB "cost" "asc" none none none).db = sampleDB) :=
  ⟨Or.inl (by decide),
   get_treasures_invalid_params sampleDB "cost" "asc" none none none (Or.inl (by decide))⟩

theorem mem_minAgeFilter {mi : Option Int} {l : List TreasureRecord} {r : TreasureRecord} :
    r ∈ minAgeFilter mi l ↔ r ∈ l ∧ (∀ n, mi = some n → n ≠ 0 → n ≤ r.age) := by
  unfold minAgeFilter
  match mi with
  | none => simp [truthyInt]
  | some n =>
    by_cases hn : n = 0
    · subst hn
      simp [truthyInt]
    · simp [truthyInt, hn, List.mem_filter]

theorem mem_maxAgeFilter {ma : Option Int} {l : List TreasureRecord} {r : TreasureRecord} :
    r ∈ maxAgeFilter ma l ↔ r ∈ l ∧ (∀ n, ma = some n → n ≠ 0 → r.age ≤ n) := by
  unfold maxAgeFilter
  match ma with
  | none => simp [truthyInt]
  | some n =>
    by_cases hn : n = 0
    · subst hn
      simp [truthyInt]
    · simp [truthyInt, hn, List.mem_filter]

theorem mem_colourFilter {c : Option String} {l : List TreasureRecord} {r : TreasureRecord} :
    r ∈ colourFilter c l ↔ r ∈ l ∧ (∀ v, c = some v → v ≠ "" → r.colour = v) := by
  unfold colourFilter
  match c with
  | none => simp [truthyStr]
  | some v =>
    by_cases hv : v = ""
    · subst hv
      simp [truthyStr]
    · simp [truthyStr, hv, List.mem_filter]

/-- C2 counterexample: with max_age supplied as 0, the handler skips the
age filter (0 is falsy in Python), so a record with age 5 — violating
the supplied inclusive bound age ≤ 0 — is still returned. -/
theorem get_treasures_filter_zero_cex :
    (get_treasures sampleDB "age" "asc" none (some 0) none).result =
      GetResult.ok [coinRecord, ringRecord] ∧
    ringRecord ∈ [coinRecord, ringRecord] ∧ ¬ ringRecord.age ≤ 0 := by
  refine ⟨by decide, by decide, by decide⟩

/-- C2 amended: for every GET /api/treasures that returns a list, a
joined record is in the returned list iff it is a joined row of the
database and satisfies each filter that was supplied with a truthy
value; a filter supplied as 0 (min_age, max_age) or as the empty string
(colour) is skipped entirely, contrary to the original claim. -/
theorem get_treasures_filter_spec (db : DB) (sort_by ord : String)
    (colour : Option String) (max_age min_age : Option Int)
    (l : List TreasureRecord) (r : TreasureRecord)
    (h : (get_treasures db sort_by ord colour max_age min_age).result = GetResult.ok l) :
    r ∈ l ↔ r ∈ joinRows db ∧
      (∀ n, min_age = some n → n ≠ 0 → n ≤ r.age) ∧
      (∀ n, max_age = some n → n ≠ 0 → r.age ≤ n) ∧
      (∀ v, colour = some v → v ≠ "" → r.colour = v) := by
  unfold get_treasures at h
  by_cases hs : sort_by ∉ treasures_columns
  · rw [if_pos hs] at h
    exact absurd h (by simp)
  · by_cases ho : ord ∉ order_options
    · rw [if_neg hs, if_pos ho] at h
      exact absurd h (by simp)
    · rw [if_neg hs, if_neg ho] at h
      simp only [GetResult.ok.injEq] at h
      rw [← h]
      rw [mem_colourFilter, mem_maxAgeFilter, mem_minAgeFilter, mem_orderBy]
      tauto

theorem get_treasures_filter_spec_witness :
    ((get_treasures sampleDB "age" "asc" (some "gold") none none).result =
      GetResult.ok [ringRecord]) ∧
    (ringRecord ∈ [ringRecord] ↔ ringRecord ∈ joinRows sampleDB ∧
      (∀ n, (none : Option Int) = some n → n ≠ 0 → n ≤ ringRecord.age) ∧
      (∀ n, (none : Option Int) = some n → n ≠ 0 → ringRecord.age ≤ n) ∧
      (∀ v, (some "gold" : Option String) = some v → v ≠ "" → ringRecord.colour = v)) :=
  ⟨by decide,
   get_treasures_filter_spec sampleDB "age" "asc" (some "gold") none none
     [ringRecord] ringRecord (by decide)⟩

theorem filter_id_unique :
    ∀ (l : List Treasure) (t : Treasure), t ∈ l → (l.map Treasure.treasure_id).Nodup →
      l.filter (fun u => u.treasure_id == t.treasure_id) = [t]
  | [], t, hmem, _ => absurd hmem (List.not_mem_nil t)
  | u :: us, t, hmem, hnd => by
    rw [List.map_cons, List.nodup_cons] at hnd
    rcases List.mem_cons.mp hmem with rfl | hmem2
    · rw [List.filter_cons, if_pos (by simp)]
      have hnone : ∀ v ∈ us, ¬ (v.treasure_id == t.treasure_id) = true := by
        intro v hv hbeq
        rw [beq_iff_eq] at hbeq
        exact hnd.1 (hbeq ▸ List.mem_map_of_mem Treasure.treasure_id hv)
      rw [List.filter_eq_nil_iff.mpr hnone]
    · have hne : ¬ (u.treasure_id == t.treasure_id) = true := by
        rw [beq_iff_eq]
        intro he
        exact hnd.1 (he ▸ List.mem_map_of_mem Treasure.treasure_id hmem2)
      rw [List.filter_cons, if_neg hne]
      exact filter_id_unique us t hmem2 hnd.2

/-- C1: a PATCH on an existing treasure with a strictly lower price sets
that treasure's cost_at_auction to the new value and reaches the 204 No
Content outcome; with a price greater than or equal to the stored one it
raises a ValueError (not an HTTPException) and leaves the database
unchanged. The stored ids are assumed unique, as the serial primary key
guarantees. -/
theorem patch_treasure_spec (db : DB) (t : Treasure) (new_price : ℚ)
    (hmem : t ∈ db.treasures) (hnd : (db.treasures.map Treasure.treasure_id).Nodup) :
    (new_price < t.cost_at_auction →
      (patch_treasure db t.treasure_id new_price).outcome = PatchOutcome.noContent ∧
      ∀ u ∈ (patch_treasure db t.treasure_id new_price).db.treasures,
        u.treasure_id = t.treasure_id → u.cost_at_auction = new_price) ∧
    (t.cost_at_auction ≤ new_price →
      (∃ m, (patch_treasure db t.treasure_id new_price).outcome = PatchOutcome.valueError m) ∧
      (patch_treasure db t.treasure_id new_price).db = db) := by
  have hfilter := filter_id_unique db.treasures t hmem hnd
  unfold patch_treasure
  rw [hfilter]
  simp only [List.map_cons, List.map_nil]
  constructor
  · intro hlt
    rw [if_neg (not_le.mpr hlt)]
    refine ⟨rfl, ?_⟩
    intro u hu he
    rcases List.mem_map.mp hu with ⟨v, _, rfl⟩
    by_cases hvt : (v.treasure_id == t.treasure_id) = true
    · simp only [if_pos hvt]
    · rw [if_neg hvt] at he ⊢
      rw [beq_iff_eq] at hvt
      exact absurd he hvt
  · intro hge
    rw [if_pos hge]
    exact ⟨⟨_, rfl⟩, rfl⟩

theorem patch_treasure_spec_witness :
    (sampleRing ∈ sampleDB.treasures ∧
      (sampleDB.treasures.map Treasure.treasure_id).Nodup) ∧
    ((4 < sampleRing.cost_at_auction →
      (patch_treasure sampleDB sampleRing.treasure_id 4).outcome = PatchOutcome.noContent ∧
      ∀ u ∈ (patch_treasure sampleDB sampleRing.treasure_id 4).db.treasures,
        u.treasure_id = sampleRing.treasure_id → u.cost_at_auction = 4) ∧
    (sampleRing.cost_at_auction ≤ 4 →
      (∃ m, (patch_treasure sampleDB sampleRing.treasure_id 4).outcome =
          PatchOutcome.valueError m) ∧
      (patch_treasure sampleDB sampleRing.treasure_id 4).db = sampleDB)) :=
  ⟨⟨by decide, by decide⟩, patch_treasure_spec sampleDB sampleRing 4 (by decide) (by decide)⟩

/-- C9: a PATCH naming a treasure_id with no row reaches the IndexError
of indexing row 0 of the empty SELECT result — an unhandled server
fault, not an HTTP error — and the trace shows only the connect and the
price SELECT: no UPDATE statement ran and the database is unchanged. -/
theorem patch_treasure_missing (db : DB) (treasure_id : Nat) (new_price : ℚ)
    (h : ∀ t ∈ db.treasures, t.treasure_id ≠ treasure_id) :
    (patch_treasure db treasure_id new_price).outcome = PatchOutcome.indexError ∧
    (patch_treasure db treasure_id new_price).ops =
      [DbOp.connect, DbOp.query "select_current_price"] ∧
    (patch_treasure db treasure_id new_price).db = db := by
  have hfil : db.treasures.filter (fun t => t.treasure_id == treasure_id) = [] :=
    List.filter_eq_nil_iff.mpr (fun t ht => by simp [h t ht])
  unfold patch_treasure
  rw [hfil]
  exact ⟨rfl, rfl, rfl⟩

theorem patch_treasure_missing_witness :
    (∀ t ∈ sampleDB.treasures, t.treasure_id ≠ 99) ∧
    ((patch_treasure sampleDB 99 4).outcome = PatchOutcome.indexError ∧
      (patch_treasure sampleDB 99 4).ops = [DbOp.connect, DbOp.query "select_current_price"] ∧
      (patch_treasure sampleDB 99 4).db = sampleDB) :=
  ⟨by decide, patch_treasure_missing sampleDB 99 4 (by decide)⟩

theorem length_filter_add_length_filter_not (p : Treasure → Bool) :
    ∀ l : List Treasure, (l.filter p).length + (l.filter (fun a => !(p a))).length = l.length
  | [] => rfl
  | a :: as => by
    rw [List.filter_cons, List.filter_cons]
    by_cases ha : p a = true
    · rw [if_pos ha, if_neg (by simp [ha])]
      rw [List.length_cons]
      rw [Nat.succ_add]
      rw [length_filter_add_length_filter_not p as]
      rfl
    · rw [if_neg ha, if_pos (by simp [Bool.not_eq_true] at ha ⊢; exact ha)]
      rw [List.length_cons]
      rw [Nat.add_succ]
      rw [length_filter_add_length_filter_not p as]
      rfl

/-- C8: DELETE on an existing id removes exactly the matching row — all
other rows survive, the count drops by one — and reaches the 204 No
Content outcome with no body; a ValueError is raised exactly when no row
matched the id, and then the table is unchanged. The stored ids are
assumed unique, as the serial primary key guarantees. -/
theorem delete_treasure_spec (db : DB) (tid : Nat)
    (hnd : (db.treasures.map Treasure.treasure_id).Nodup) :
    ((∃ t ∈ db.treasures, t.treasure_id = tid) →
      (delete_treasure db tid).outcome = DeleteOutcome.noContent ∧
      (delete_treasure db tid).db.treasures.length + 1 = db.treasures.length ∧
      (∀ u ∈ db.treasures, u.treasure_id ≠ tid → u ∈ (delete_treasure db tid).db.treasures) ∧
      (∀ u ∈ (delete_treasure db tid).db.treasures, u ∈ db.treasures ∧ u.treasure_id ≠ tid)) ∧
    ((∃ m, (delete_treasure db tid).outcome = DeleteOutcome.valueError m) ↔
      (∀ t ∈ db.treasures, t.treasure_id ≠ tid)) ∧
    ((∀ t ∈ db.treasures, t.treasure_id ≠ tid) → (delete_treasure db tid).db = db) := by
  refine ⟨?_, ?_, ?_⟩
  · rintro ⟨t, hmem, rfl⟩
    have hfil := filter_id_unique db.treasures t hmem hnd
    have hne : ¬ (db.treasures.filter
        (fun u => u.treasure_id == t.treasure_id)).isEmpty = true := by
      rw [hfil]
      simp
    unfold delete_treasure
    rw [if_neg hne]
    refine ⟨rfl, ?_, ?_, ?_⟩
    · have hsum := length_filter_add_length_filter_not
        (fun u => u.treasure_id == t.treasure_id) db.treasures
      rw [hfil] at hsum
      simpa [Nat.add_comm] using hsum
    · intro u hu hune
      simp only [List.mem_filter]
      exact ⟨hu, by simp [hune]⟩
    · intro u hu
      simp only [List.mem_filter] at hu
      refine ⟨hu.1, ?_⟩
      have := hu.2
      simp only [Bool.not_eq_eq_eq_not, Bool.not_true, beq_eq_false_iff_ne] at this
      exact this
  · constructor
    · rintro ⟨m, hm⟩ t ht he
      have hfilne : ¬ (db.treasures.filter
          (fun u => u.treasure_id == tid)).isEmpty = true := by
        rw [List.isEmpty_iff]
        intro hemp
        have : t ∈ db.treasures.filter (fun u => u.treasure_id == tid) :=
          List.mem_filter.mpr ⟨ht, by simp [he]⟩
        rw [hemp] at this
        exact List.not_mem_nil t this
      unfold delete_treasure at hm
      rw [if_neg hfilne] at hm
      exact absurd hm (by simp)
    · intro h
      have hfil : db.treasures.filter (fun u => u.treasure_id == tid) = [] :=
        List.filter_eq_nil_iff.mpr (fun t ht => by simp [h t ht])
      unfold delete_treasure
      rw [if_pos (by rw [hfil]; rfl)]
      exact ⟨_, rfl⟩
  · intro h
    have hself : db.treasures.filter (fun u => !(u.treasure_id == tid)) = db.treasures :=
      List.filter_eq_self.mpr (fun t ht => by simp [h t ht])
    have hfil : db.treasures.filter (fun u => u.treasure_id == tid) = [] :=
      List.filter_eq_nil_iff.mpr (fun t ht => by simp [h t ht])
    unfold delete_treasure
    rw [if_pos (by rw [hfil]; rfl), hself]

theorem delete_treasure_spec_witness :
    ((sampleDB.treasures.map Treasure.treasure_id).Nodup) ∧
    (((∃ t ∈ sampleDB.treasures, t.treasure_id = 1) →
      (delete_treasure sampleDB 1).outcome = DeleteOutcome.noContent ∧
      (delete_treasure sampleDB 1).db.treasures.length + 1 = sampleDB.treasures.length ∧
      (∀ u ∈ sampleDB.treasures, u.treasure_id ≠ 1 → u ∈ (delete_treasure sampleDB 1).db.treasures) ∧
      (∀ u ∈ (delete_treasure sampleDB 1).db.treasures, u ∈ sampleDB.treasures ∧ u.treasure_id ≠ 1)) ∧
    ((∃ m, (delete_treasure sampleDB 1).outcome = DeleteOutcome.valueError m) ↔
      (∀ t ∈ sampleDB.treasures, t.treasure_id ≠ 1)) ∧
    ((∀ t ∈ sampleDB.treasures, t.treasure_id ≠ 1) → (delete_treasure sampleDB 1).db = sampleDB)) :=
  ⟨by decide, delete_treasure_spec sampleDB 1 (by decide)⟩

/-- C6: a POST whose payload names a shop_id with no matching shop makes
the INSERT fail with a foreign-key violation, which the handler
translates to HTTP 422 with detail naming the submitted shop id; no
treasure row is persisted and the connection is closed on the way out. -/
theorem post_treasure_fk_spec (db : DB) (nt : NewTreasure)
    (h : ∀ s ∈ db.shops, s.shop_id ≠ nt.shop_id) :
    (post_treasure db nt).status = 422 ∧
    (post_treasure db nt).response =
      PostResponse.httpError 422 ("shop id " ++ toString nt.shop_id ++ " is out of range") ∧
    (post_treasure db nt).db = db ∧
    (post_treasure db nt).connClosed = true := by
  have hany : db.shops.any (fun s => s.shop_id == nt.shop_id) = false := by
    rw [List.any_eq_false]
    intro s hs
    simp [h s hs]
  unfold post_treasure run_insert
  rw [hany]
  exact ⟨rfl, rfl, rfl, rfl⟩

theorem post_treasure_fk_spec_witness :
    (∀ s ∈ sampleDB.shops,
      s.shop_id ≠ (NewTreasure.mk "orb" "blue" 3 7 12).shop_id) ∧
    ((post_treasure sampleDB (NewTreasure.mk "orb" "blue" 3 7 12)).status = 422 ∧
      (post_treasure sampleDB (NewTreasure.mk "orb" "blue" 3 7 12)).response =
        PostResponse.httpError 422 ("shop id " ++ toString (12 : Nat) ++ " is out of range") ∧
      (post_treasure sampleDB (NewTreasure.mk "orb" "blue" 3 7 12)).db = sampleDB ∧
      (post_treasure sampleDB (NewTreasure.mk "orb" "blue" 3 7 12)).connClosed = true) :=
  ⟨by decide, post_treasure_fk_spec sampleDB (NewTreasure.mk "orb" "blue" 3 7 12) (by decide)⟩

/-- C7: a POST whose payload names an existing shop appends exactly one
new row carrying the submitted fields and the generated serial id, and
returns HTTP 201 with the persisted record embedding shop_id. -/
theorem post_treasure_created_spec (db : DB) (nt : NewTreasure)
    (h : ∃ s ∈ db.shops, s.shop_id = nt.shop_id) :
    (post_treasure db nt).status = 201 ∧
    (post_treasure db nt).response = PostResponse.created
      { treasure_id := db.nextId, treasure_name := nt.treasure_name, colour := nt.colour,
        age := nt.age, cost_at_auction := nt.cost_at_auction, shop_id := nt.shop_id } ∧
    (post_treasure db nt).db.treasures = db.treasures ++
      [{ treasure_id := db.nextId, treasure_name := nt.treasure_name, colour := nt.colour,
         age := nt.age, cost_at_auction := nt.cost_at_auction, shop_id := nt.shop_id }] ∧
    (post_treasure db nt).connClosed = true := by
  have hany : db.shops.any (fun s => s.shop_id == nt.shop_id) = true := by
    rw [List.any_eq_true]
    rcases h with ⟨s, hs, he⟩
    exact ⟨s, hs, by simp [he]⟩
  unfold post_treasure run_insert
  rw [hany]
  exact ⟨rfl, rfl, rfl, rfl⟩

theorem post_treasure_created_spec_witness :
    (∃ s ∈ sampleDB.shops, s.shop_id = (NewTreasure.mk "orb" "blue" 3 7 1).shop_id) ∧
    ((post_treasure sampleDB (NewTreasure.mk "orb" "blue" 3 7 1)).status = 201 ∧
      (post_treasure sampleDB (NewTreasure.mk "orb" "blue" 3 7 1)).response =
        PostResponse.created
          { treasure_id := sampleDB.nextId, treasure_name := "orb", colour := "blue",
            age := 3, cost_at_auction := 7, shop_id := 1 } ∧
      (post_treasure sampleDB (NewTreasure.mk "orb" "blue" 3 7 1)).db.treasures =
        sampleDB.treasures ++
          [{ treasure_id := sampleDB.nextId, treasure_name := "orb", colour := "blue",
             age := 3, cost_at_auction := 7, shop_id := 1 }] ∧
      (post_treasure sampleDB (NewTreasure.mk "orb" "blue" 3 7 1)).connClosed = true) :=
  ⟨⟨sampleShop, by decide, by decide⟩,
   post_treasure_created_spec sampleDB (NewTreasure.mk "orb" "blue" 3 7 1)
     ⟨sampleShop, by decide, by decide⟩⟩

/-- C10: the except clause of the create handler catches every
DatabaseError, not only foreign-key violations: whatever database error
the INSERT raises, the response is HTTP 422 with the same detail naming
the submitted shop_id — the result does not depend on the error at all. -/
theorem post_treasure_core_any_error (db : DB) (nt : NewTreasure) (e e2 : DBError) :
    (post_treasure_core db nt (Except.error e)).status = 422 ∧
    (post_treasure_core db nt (Except.error e)).response =
      PostResponse.httpError 422 ("shop id " ++ toString nt.shop_id ++ " is out of range") ∧
    post_treasure_core db nt (Except.error e) = post_treasure_core db nt (Except.error e2) :=
  ⟨rfl, rfl, rfl⟩

theorem setStock_shop_id (acc : ShopRecord) (p : Nat × ℚ) :
    (setStock acc p).shop_id = acc.shop_id := by
  unfold setStock
  split <;> rfl

theorem setStock_shop_name (acc : ShopRecord) (p : Nat × ℚ) :
    (setStock acc p).shop_name = acc.shop_name := by
  unfold setStock
  split <;> rfl

theorem setStock_slogan (acc : ShopRecord) (p : Nat × ℚ) :
    (setStock acc p).slogan = acc.slogan := by
  unfold setStock
  split <;> rfl

theorem foldl_setStock_shop_id :
    ∀ (l : List (Nat × ℚ)) (acc : ShopRecord), (l.foldl setStock acc).shop_id = acc.shop_id
  | [], _ => rfl
  | p :: ps, acc => by
    rw [List.foldl_cons, foldl_setStock_shop_id ps (setStock acc p), setStock_shop_id]

theorem foldl_setStock_shop_name :
    ∀ (l : List (Nat × ℚ)) (acc : ShopRecord), (l.foldl setStock acc).shop_name = acc.shop_name
  | [], _ => rfl
  | p :: ps, acc => by
    rw [List.foldl_cons, foldl_setStock_shop_name ps (setStock acc p), setStock_shop_name]

theorem foldl_setStock_slogan :
    ∀ (l : List (Nat × ℚ)) (acc : ShopRecord), (l.foldl setStock acc).slogan = acc.slogan
  | [], _ => rfl
  | p :: ps, acc => by
    rw [List.foldl_cons, foldl_setStock_slogan ps (setStock acc p), setStock_slogan]

theorem foldl_setStock_stock_value :
    ∀ (l : List (Nat × ℚ)) (acc : ShopRecord), (l.map Prod.fst).Nodup →
      (l.foldl setStock acc).stock_value =
        (match l.find? (fun p => p.1 == acc.shop_id) with
          | some p => some (round2 p.2)
          | none => acc.stock_value)
  | [], _, _ => rfl
  | p :: ps, acc, hnd => by
    rw [List.map_cons, List.nodup_cons] at hnd
    rw [List.foldl_cons, List.find?_cons]
    by_cases hp : (p.1 == acc.shop_id) = true
    · simp only [hp]
      have hacc : setStock acc p = { acc with stock_value := some (round2 p.2) } := by
        unfold setStock
        rw [if_pos hp]
      rw [hacc]
      have ih := foldl_setStock_stock_value ps { acc with stock_value := some (round2 p.2) } hnd.2
      rw [ih]
      have hnone : ps.find? (fun q =>
          q.1 == ({ acc with stock_value := some (round2 p.2) } : ShopRecord).shop_id) = none := by
        rw [List.find?_eq_none]
        intro q hq hbeq
        apply hnd.1
        rw [beq_iff_eq] at hp hbeq
        rw [hp, ← hbeq]
        exact List.mem_map_of_mem Prod.fst hq
      rw [hnone]
    · have hpf : (p.1 == acc.shop_id) = false := by
        rw [Bool.not_eq_true] at hp
        exact hp
      simp only [hpf]
      have hacc : setStock acc p = acc := by
        unfold setStock
        rw [if_neg hp]
      rw [hacc]
      exact foldl_setStock_stock_value ps acc hnd.2

theorem treasures_cost_keys (db : DB) :
    (treasures_cost db).map Prod.fst = (db.treasures.map Treasure.shop_id).dedup := by
  unfold treasures_cost
  rw [List.map_map]
  exact List.map_id _

theorem find?_beq_of_mem {l : List Nat} {sid : Nat} (h : sid ∈ l) :
    l.find? (fun s => s == sid) = some sid := by
  induction l with
  | nil => exact absurd h (List.not_mem_nil sid)
  | cons a as ih =>
    rw [List.find?_cons]
    by_cases ha : (a == sid) = true
    · simp only [ha]
      rw [beq_iff_eq] at ha
      rw [ha]
    · have haf : (a == sid) = false := by
        rw [Bool.not_eq_true] at ha
        exact ha
      simp only [haf]
      rcases List.mem_cons.mp h with rfl | h2
      · simp at ha
      · exact ih h2

theorem find?_treasures_cost (db : DB) (sid : Nat) :
    (treasures_cost db).find? (fun p => p.1 == sid) =
      (((db.treasures.map Treasure.shop_id).dedup).find? (fun s => s == sid)).map
        (fun s => (s, sumCostFor db s)) := by
  unfold treasures_cost
  rw [List.find?_map]
  rfl

/-- C3: GET /api/shops returns one entry per shop; a shop with at least
one treasure carries a stock value equal to the sum of cost_at_auction
over its treasures, rounded to 2 decimal places, while a shop with no
treasures has no stock value key at all (modelled as the stock_value
field being none rather than a number). -/
theorem get_shops_spec (db : DB) :
    (get_shops db).length = db.shops.length ∧
    ∀ (i : Nat) (s : Shop), db.shops[i]? = some s →
      ∃ r : ShopRecord, (get_shops db)[i]? = some r ∧
        r.shop_id = s.shop_id ∧ r.shop_name = s.shop_name ∧ r.slogan = s.slogan ∧
        ((∃ t ∈ db.treasures, t.shop_id = s.shop_id) →
          r.stock_value = some (round2 (sumCostFor db s.shop_id))) ∧
        ((∀ t ∈ db.treasures, t.shop_id ≠ s.shop_id) → r.stock_value = none) := by
  constructor
  · unfold get_shops
    exact List.length_map _ _
  · intro i s hi
    unfold get_shops
    rw [List.getElem?_map, hi]
    refine ⟨_, rfl, ?_, ?_, ?_, ?_, ?_⟩
    · rw [foldl_setStock_shop_id]
    · rw [foldl_setStock_shop_name]
    · rw [foldl_setStock_slogan]
    · rintro ⟨t, hmem, he⟩
      have hkeys : ((treasures_cost db).map Prod.fst).Nodup := by
        rw [treasures_cost_keys]
        exact List.nodup_dedup _
      rw [foldl_setStock_stock_value _ _ hkeys]
      have hmemdedup : s.shop_id ∈ (db.treasures.map Treasure.shop_id).dedup :=
        List.mem_dedup.mpr (he ▸ List.mem_map_of_mem Treasure.shop_id hmem)
      rw [find?_treasures_cost, find?_beq_of_mem hmemdedup]
      rfl
    · intro hno
      have hkeys : ((treasures_cost db).map Prod.fst).Nodup := by
        rw [treasures_cost_keys]
        exact List.nodup_dedup _
      rw [foldl_setStock_stock_value _ _ hkeys]
      have hnomem : ((db.treasures.map Treasure.shop_id).dedup).find?
          (fun v => v == s.shop_id) = none := by
        rw [List.find?_eq_none]
        intro v hv hbeq
        rw [beq_iff_eq] at hbeq
        rcases List.mem_map.mp (List.mem_dedup.mp hv) with ⟨t, ht, rfl⟩
        exact hno t ht hbeq
      rw [find?_treasures_cost, hnomem]
      rfl

theorem get_shops_spec_witness :
    (sampleDB.shops[0]? = some sampleShop) ∧
    (∃ r : ShopRecord, (get_shops sampleDB)[0]? = some r ∧
      r.shop_id = sampleShop.shop_id ∧ r.shop_name = sampleShop.shop_name ∧
      r.slogan = sampleShop.slogan ∧
      ((∃ t ∈ sampleDB.treasures, t.shop_id = sampleShop.shop_id) →
        r.stock_value = some (round2 (sumCostFor sampleDB sampleShop.shop_id))) ∧
      ((∀ t ∈ sampleDB.treasures, t.shop_id ≠ sampleShop.shop_id) → r.stock_value = none)) :=
  ⟨by decide, (get_shops_spec sampleDB).2 0 sampleShop (by decide)⟩
